import Mathlib

/-!
Verification of the scheduler / playback-supervisor of `audio_player.py`
(simple-python-audio-player) against its natural-language specification.

The Python source is shallowly embedded below.  Wall-clock timestamps are
naturals (seconds); the OS layer (`os.path`, `os.walk`, file existence)
and the moment at which a `KeyboardInterrupt` is delivered are modelled as
an explicit environment `Env`, so every definition is executable.
-/

deriving instance DecidableEq for Except

namespace AudioPlayer

/-- `self.supported_formats = ('.mp3', '.wav', '.ogg', '.flac', '.m4a')`. -/
def supportedFormats : List String := [".mp3", ".wav", ".ogg", ".flac", ".m4a"]

/-- `str.lower()`, character by character. -/
def lowerChars (l : List Char) : List Char := l.map Char.toLower

/-- `str.endswith(suffix)`, on the character lists. -/
def endsWithChars (s suff : List Char) : Bool :=
  s.drop (s.length - suff.length) == suff

/-- `is_audio_file`: `filepath.lower().endswith(self.supported_formats)`
(Python `endswith` on a tuple is true when any suffix matches). -/
def isAudioFile (p : String) : Bool :=
  supportedFormats.any (fun ext => endsWithChars (lowerChars p.data) ext.data)

/-- Where, if anywhere, a `KeyboardInterrupt` is delivered while the engine
processes the schedule entry at a given sorted position: never, during the
wait-for-`start_time` loop (line 374, uncaught there), or during the
wait-for-`stop_time` loop (line 391, caught at line 393). -/
inductive IntrAt
  | off
  | atStartWait
  | atStopWait
deriving DecidableEq, Repr

/-- The OS / process environment `play_scheduled` runs in: the `os.path`
primitives the script calls, file existence, the ordered file list produced
by `os.walk` with `sorted(files)` (directory walking is thin I/O per the
spec), where interrupts land, and `datetime.now()` at the start of the run. -/
structure Env where
  isabs : String → Bool
  abspath : String → String
  dirname : String → String
  joinPath : String → String → String
  pathExists : String → Bool
  isfile : String → Bool
  isdir : String → Bool
  walkFiles : String → List String
  intr : Nat → IntrAt
  startNow : Nat

/-- `get_audio_files`: a file is returned iff it is a supported format; a
directory contributes the supported files found by the ordered walk;
anything else yields the empty list (after printing an error). -/
def getAudioFiles (env : Env) (path : String) : List String :=
  if env.isfile path then
    (if isAudioFile path then [path] else [])
  else if env.isdir path then
    (env.walkFiles path).filter (fun f => isAudioFile f)
  else []

/-- One raw schedule dictionary, as far as the script inspects it.
`none` at the outer level models a missing key; `some none` in a time field
models a value `datetime.strptime` rejects; `some (some t)` a value parsing
to time `t`. -/
structure RawEntry where
  start_time : Option (Option Nat)
  stop_time : Option (Option Nat)
  path : Option String
deriving DecidableEq, Repr

/-- The observable events of one `play_scheduled` run: the error prints of
the validation code, the `SCHEDULE_*` log events, the wait, the
immediate-start print, the supervisor-thread start, and the
`"\nStopped by user"` print of the `KeyboardInterrupt` handler. -/
inductive SKey
  | start_time
  | stop_time
  | path
deriving DecidableEq, Repr

inductive Ev
  | errBadFormat
  | errMissingKey (idx : Nat) (k : SKey)
  | errInvalidDate (idx : Nat)
  | errInvalidWindow (idx : Nat)
  | errPathNotFound (idx : Nat) (p : String)
  | errUnsupported (idx : Nat) (p : String)
  | scheduleEntry (idx start stop : Nat) (p : String)
  | waited (idx t : Nat)
  | startImmediate (idx : Nat)
  | scheduleStart (idx start stop : Nat) (p : String)
  | playbackStart (idx : Nat) (p : String)
  | stoppedByUser
  | scheduleStop (idx start stop : Nat) (p : String)
  | finishedMsg
deriving DecidableEq, Repr

/-- `_resolve_schedule_path`: absolute paths pass through, relative ones
are joined to the directory containing the schedule file. -/
def resolveSchedulePath (env : Env) (schedulePath audioPath : String) : String :=
  if env.isabs audioPath then audioPath
  else env.abspath (env.joinPath (env.dirname (env.abspath schedulePath)) audioPath)

/-- The per-entry validation performed inside the loop at lines 342-365,
in source order: presence of `start_time`, `stop_time`, `path`; parse of
`start_time` then `stop_time`; `stop_dt <= start_dt`; resolved path
existence; `is_audio_file` on the resolved path.  On success returns the
parsed window and the resolved path. -/
def validateEntry (env : Env) (scheduleFile : String) (idx : Nat) (e : RawEntry) :
    Except Ev (Nat × Nat × String) :=
  match e.start_time with
  | none => .error (.errMissingKey idx .start_time)
  | some st? =>
    match e.stop_time with
    | none => .error (.errMissingKey idx .stop_time)
    | some sp? =>
      match e.path with
      | none => .error (.errMissingKey idx .path)
      | some p =>
        match st? with
        | none => .error (.errInvalidDate idx)
        | some st =>
          match sp? with
          | none => .error (.errInvalidDate idx)
          | some sp =>
            if sp ≤ st then .error (.errInvalidWindow idx)
            else
              let ap := resolveSchedulePath env scheduleFile p
              if env.pathExists ap then
                if isAudioFile ap then .ok (st, sp, ap)
                else .error (.errUnsupported idx ap)
              else .error (.errPathNotFound idx ap)

/-- Lines 390-406: block until `stop_dt` (or a caught `KeyboardInterrupt`),
then stop the supervisor and emit `SCHEDULE_STOP`.  Returns the emitted
events, the wall clock afterwards, and whether an exception escaped (the
handler swallows the interrupt, so never). -/
def stopPhase (env : Env) (idx st sp : Nat) (ap : String) (now1 : Nat) :
    List Ev × Nat × Bool :=
  if now1 < sp ∧ env.intr idx = .atStopWait then
    ([.stoppedByUser, .scheduleStop idx st sp ap], now1, false)
  else
    ([.scheduleStop idx st sp ap], max now1 sp, false)

/-- Lines 367-406 for one validated entry: emit `SCHEDULE_ENTRY`; wait for
`start_time` when it is still ahead (a `KeyboardInterrupt` landing in that
wait loop is uncaught and aborts the run), otherwise start immediately;
emit `SCHEDULE_START`, start the supervisor thread on the resolved path,
then run the stop phase.  Returns (events, clock afterwards, raised). -/
def entryEvents (env : Env) (idx st sp : Nat) (ap : String) (now : Nat) :
    List Ev × Nat × Bool :=
  if now < st then
    if env.intr idx = .atStartWait then
      ([.scheduleEntry idx st sp ap], now, true)
    else
      let s := stopPhase env idx st sp ap st
      (.scheduleEntry idx st sp ap :: .waited idx st :: .scheduleStart idx st sp ap ::
        .playbackStart idx ap :: s.1, s.2)
  else
    let s := stopPhase env idx st sp ap now
    (.scheduleEntry idx st sp ap :: .startImmediate idx :: .scheduleStart idx st sp ap ::
      .playbackStart idx ap :: s.1, s.2)

/-- Pair each element with its 1-based position (`enumerate(schedules, start=1)`). -/
def withIdx {α : Type} : Nat → List α → List (Nat × α)
  | _, [] => []
  | i, a :: l => (i, a) :: withIdx (i + 1) l

/-- The body of the `for idx, item in enumerate(schedules, start=1)` loop:
validate the entry (an error prints a message and returns from
`play_scheduled`), execute it, and continue with the next entry unless an
exception escaped.  Returns (events, raised). -/
def runEntriesLoop (env : Env) (scheduleFile : String) :
    List (Nat × RawEntry) → Nat → List Ev × Bool
  | [], _ => ([.finishedMsg], false)
  | (idx, e) :: rest, now =>
    match validateEntry env scheduleFile idx e with
    | .error ev => ([ev], false)
    | .ok (st, sp, ap) =>
      let r := entryEvents env idx st sp ap now
      if r.2.2 then (r.1, true)
      else
        let r2 := runEntriesLoop env scheduleFile rest r.2.1
        (r.1 ++ r2.1, r2.2)

/-- Stable ascending insertion by key: the element being inserted came
earlier in declaration order than everything already in the sorted list,
so it is placed before the first element of key `≥` its own. -/
def insertByKey {α : Type} (key : α → Nat) (a : α) : List α → List α
  | [] => [a]
  | b :: l => if key a ≤ key b then a :: b :: l else b :: insertByKey key a l

/-- Python's `sorted(schedules, key=...)`: the unique stable ascending
reordering, realised as right-to-left insertion. -/
def pySortByKey {α : Type} (key : α → Nat) : List α → List α
  | [] => []
  | a :: l => insertByKey key a (pySortByKey key l)

/-- `True` iff `item['start_time']` exists and parses. -/
def validStart (e : RawEntry) : Bool :=
  match e.start_time with
  | some (some _) => true
  | _ => false

/-- The key function `_start_dt` used at line 338, total on entries whose
start time is present and valid (the only case in which the sort runs). -/
def startKeyOf (e : RawEntry) : Nat := (e.start_time.getD none).getD 0

/-- Line 338, `sorted(schedules, key=_start_dt)`: the key function is
applied to every element, so a missing (`KeyError`) or malformed
(`ValueError`) `start_time` anywhere raises out of `play_scheduled`
before the loop runs — modelled as `none`. -/
def sortSchedules (es : List RawEntry) : Option (List RawEntry) :=
  if es.all validStart then some (pySortByKey startKeyOf es) else none

/-- `play_scheduled` after a successful read of the schedule file: the
input `schedules` is `data.get('schedules')` (`none` when absent or not a
list).  Returns the events of the run and whether an exception escaped. -/
def playScheduled (env : Env) (scheduleFile : String)
    (schedules : Option (List RawEntry)) : List Ev × Bool :=
  match schedules with
  | none => ([.errBadFormat], false)
  | some [] => ([.errBadFormat], false)
  | some es =>
    match sortSchedules es with
    | none => ([], true)
    | some es' => runEntriesLoop env scheduleFile (withIdx 1 es') env.startNow

/-! ## Supervisor loop and play/log attempts (lines 157-188, 221-243, 289-318) -/

/-- The per-attempt observables of the three playback loops: the three log
line kinds (`PLAY_BEGIN` / `PLAY` / `PLAY_FAIL`), the `time.sleep(0.1)`
polls of a busy-wait while a track plays, and the `time.sleep(1)` pause a
failed scheduled attempt inserts before the next cycle. -/
inductive PEv
  | playBegin
  | play
  | playFail
  | pollSleep
  | pauseAfterFail
deriving DecidableEq, Repr

/-- What `pygame.mixer.music.load(...)/play()` does on one attempt:
succeeds, raises `pygame.error`, or raises some other exception. -/
inductive PygameResult
  | ok
  | pygameError
  | otherError
deriving DecidableEq, Repr

/-- `play_file` (lines 157-188): `PLAY_BEGIN`, then a successful
load/play logs `PLAY` and busy-waits; a `pygame.error` on an `.m4a` file
tries the blocking ffplay fallback (`PLAY` on success, `PLAY_FAIL`
otherwise); any other failure logs `PLAY_FAIL`.  `polls` is the number of
busy-wait iterations observed on success. -/
def playFileEvents (isM4a : Bool) (r : PygameResult) (ffplayOk : Bool) (polls : Nat) :
    List PEv :=
  .playBegin ::
    match r with
    | .ok => .play :: List.replicate polls .pollSleep
    | .pygameError =>
      if isM4a then (if ffplayOk then [.play] else [.playFail]) else [.playFail]
    | .otherError => [.playFail]

/-- One iteration of the single-file `--loop` body (lines 222-243):
`PLAY_BEGIN`; for `.m4a`, a successful ffplay run logs `PLAY`, and an
unavailable ffplay logs `PLAY_FAIL` and then *also* attempts pygame,
logging a second outcome `PLAY` if that succeeds (a pygame failure raises
to the handler at line 247 and ends the loop with no further line); for
other formats a pygame success logs `PLAY` and a failure raises out
(re-raised at line 252), leaving the attempt without an outcome line. -/
def singleLoopIterEvents (isM4a ffplayOk pygameOk : Bool) (polls : Nat) : List PEv :=
  .playBegin ::
    (if isM4a then
      (if ffplayOk then [.play]
       else .playFail :: (if pygameOk then .play :: List.replicate polls .pollSleep else []))
    else
      (if pygameOk then .play :: List.replicate polls .pollSleep else []))

/-- The environment of one iteration of `_play_loop_until_stop`
(lines 291-318): the stop flag observed at the loop head, whether the file
is `.m4a`, what the terminable ffplay subprocess reports, whether the stop
flag is found set right after it returns, whether pygame succeeds, and the
busy-wait poll count. -/
structure LoopIterEnv where
  stopAtHead : Bool
  isM4a : Bool
  ffplayRes : Bool
  stopAfterFfplay : Bool
  pygameOk : Bool
  polls : Nat
deriving DecidableEq, Repr

/-- The body of one `_play_loop_until_stop` iteration (lines 292-318),
entered with the stop flag clear: `PLAY_BEGIN`; `.m4a` goes through the
terminable ffplay subprocess — on `True` the play is logged only if the
stop flag is still clear (a stop mid-play leaves no outcome line), on
`False` pygame is attempted; non-`.m4a` uses pygame directly; any
exception is caught by the broad handler, which logs `PLAY_FAIL` and
sleeps one second. -/
def playLoopIter (e : LoopIterEnv) : List PEv :=
  .playBegin ::
    (if e.isM4a then
      (if e.ffplayRes then
        (if e.stopAfterFfplay then [] else [.play])
       else
        (if e.pygameOk then .play :: List.replicate e.polls .pollSleep
         else [.playFail, .pauseAfterFail]))
    else
      (if e.pygameOk then .play :: List.replicate e.polls .pollSleep
       else [.playFail, .pauseAfterFail]))

/-- `while not self.stop_flag:` (line 291): iterate the body until the
stop flag is observed set; the list supplies each iteration's environment
and bounds the observation window. -/
def playLoop : List LoopIterEnv → List PEv
  | [] => []
  | it :: rest => if it.stopAtHead then [] else playLoopIter it ++ playLoop rest

/-- Occurrence count in a list (used to state the log-pairing properties). -/
def cnt {α : Type} [DecidableEq α] (a : α) : List α → Nat
  | [] => 0
  | b :: l => (if b = a then 1 else 0) + cnt a l

/-- Number of outcome lines (`PLAY` or `PLAY_FAIL`) in an attempt's trace. -/
def outcomes (l : List PEv) : Nat := cnt PEv.play l + cnt PEv.playFail l

/-! ## Run log (lines 109-155, 410-436) -/

/-- The lines of the append-only play log, abstracted: the session header
block, one structured event line, the run summary block. -/
inductive LogLine
  | header
  | event (s : String)
  | summary
deriving DecidableEq, Repr

/-- The logging state: the `_run_log_header_written` flag and the file
contents. -/
structure LogSt where
  headerWritten : Bool
  file : List LogLine
deriving DecidableEq, Repr

/-- Fresh state of one invocation. -/
def initLog : LogSt := ⟨false, []⟩

/-- `_write_run_log_header_if_needed` (lines 118-127): nothing when the
flag is set; otherwise one append of the header block, setting the flag
only on success (`hdrOk`); a failure only prints a warning. -/
def writeHeaderIfNeeded (hdrOk : Bool) (st : LogSt) : LogSt :=
  if st.headerWritten then st
  else if hdrOk then ⟨true, st.file ++ [.header]⟩ else st

/-- `_append_log_line` (lines 129-135): lazily write the header, then
append the event line; an append failure (`lineOk = false`) only warns. -/
def appendLogLine (hdrOk lineOk : Bool) (s : String) (st : LogSt) : LogSt :=
  let st' := writeHeaderIfNeeded hdrOk st
  if lineOk then ⟨st'.headerWritten, st'.file ++ [.event s]⟩ else st'

/-- `write_run_log` (lines 410-436): lazily write the header, then append
the run summary block; a failure only warns. -/
def writeRunLogOp (hdrOk sumOk : Bool) (st : LogSt) : LogSt :=
  let st' := writeHeaderIfNeeded hdrOk st
  if sumOk then ⟨st'.headerWritten, st'.file ++ [.summary]⟩ else st'

/-- One logging call of a run, with the success/failure of each of its
file writes. -/
inductive LogOp
  | appendLine (hdrOk lineOk : Bool) (s : String)
  | runSummary (hdrOk sumOk : Bool)
deriving DecidableEq, Repr

/-- The sequence of logging calls a run performs. -/
def runLogOps : List LogOp → LogSt → LogSt
  | [], st => st
  | .appendLine h l s :: ops, st => runLogOps ops (appendLogLine h l s st)
  | .runSummary h k :: ops, st => runLogOps ops (writeRunLogOp h k st)

/-- The header write(s) of an op. -/
def hdrOkOf : LogOp → Bool
  | .appendLine h _ _ => h
  | .runSummary h _ => h

/-! ## Play counts (lines 109-116) -/

/-- `_normalize_log_path`: `os.path.abspath(filepath)` (the defensive
`except` branch returning the input is unreachable for a total `abspath`). -/
def normalizeLogPath (env : Env) (p : String) : String := env.abspath p

/-- `_increment_play_count`: `self.play_counts[normalized] += 1`; the
`Counter` is modelled as its count function. -/
def incrementPlayCount (env : Env) (c : String → Nat) (p : String) : String → Nat :=
  fun k => if k = normalizeLogPath env p then c k + 1 else c k

/-! ## Concrete fixtures used by counterexamples and witnesses -/

/-- An OS environment in which exactly `a.mp3` and `b.mp3` exist (absolute
paths pass through unresolved), no interrupt is ever delivered, and the
run starts at time 0. -/
def envBase : Env := {
  isabs := fun _ => true
  abspath := id
  dirname := fun _ => ""
  joinPath := fun a b => a ++ b
  pathExists := fun p => p == "a.mp3" || p == "b.mp3"
  isfile := fun p => p == "a.mp3" || p == "b.mp3"
  isdir := fun _ => false
  walkFiles := fun _ => []
  intr := fun _ => .off
  startNow := 0 }

/-- `envBase`, except a `KeyboardInterrupt` is delivered while the engine
waits for entry 1's stop time. -/
def envIntr1 : Env := { envBase with intr := fun i => if i == 1 then .atStopWait else .off }

/-- An OS environment with the directory `/music` containing the single
supported file `/music/song.mp3`. -/
def envMusicDir : Env := {
  isabs := fun _ => true
  abspath := id
  dirname := fun _ => ""
  joinPath := fun a b => a ++ b
  pathExists := fun p => p == "/music" || p == "/music/song.mp3"
  isfile := fun p => p == "/music/song.mp3"
  isdir := fun p => p == "/music"
  walkFiles := fun p => if p == "/music" then ["/music/song.mp3"] else []
  intr := fun _ => .off
  startNow := 0 }

/-- An OS environment whose working directory is `/d`, so the relative
spelling `a.mp3` and the absolute spelling `/d/a.mp3` normalise alike. -/
def envCwd : Env := {
  isabs := fun p => p == "/d/a.mp3"
  abspath := fun p => if p == "a.mp3" || p == "/d/a.mp3" then "/d/a.mp3" else p
  dirname := fun _ => ""
  joinPath := fun a b => a ++ b
  pathExists := fun _ => true
  isfile := fun _ => true
  isdir := fun _ => false
  walkFiles := fun _ => []
  intr := fun _ => .off
  startNow := 0 }

/-- Valid entry, window 10-20, source `a.mp3`. -/
def entryA1020 : RawEntry := ⟨some (some 10), some (some 20), some "a.mp3"⟩

/-- Entry with a window but a path that does not exist. -/
def entryBad3040 : RawEntry := ⟨some (some 30), some (some 40), some "missing.mp3"⟩

/-- Valid entry, window 0-10, source `a.mp3`. -/
def entryA010 : RawEntry := ⟨some (some 0), some (some 10), some "a.mp3"⟩

/-- Valid entry, window 20-30, source `b.mp3`. -/
def entryB2030 : RawEntry := ⟨some (some 20), some (some 30), some "b.mp3"⟩

/-- Entry whose dictionary lacks the `start_time` key. -/
def entryNoStart : RawEntry := ⟨none, some (some 5), some "a.mp3"⟩

/-- A supervisor iteration over a plain (non-m4a) file whose playback
succeeds and finishes before the first busy-wait poll. -/
def okIter : LoopIterEnv := ⟨false, false, false, false, true, 0⟩

/-! ## Stable sort: `sorted(schedules, key=_start_dt)` (line 338) -/

theorem insertByKey_perm {α : Type} (key : α → Nat) (a : α) (l : List α) :
    List.Perm (insertByKey key a l) (a :: l) := by
  induction l with
  | nil => simp [insertByKey]
  | cons b l ih =>
    by_cases h : key a ≤ key b
    · simp [insertByKey, h]
    · simp only [insertByKey, if_neg h]
      exact (ih.cons b).trans (List.Perm.swap a b l)

theorem pySortByKey_perm {α : Type} (key : α → Nat) (l : List α) :
    List.Perm (pySortByKey key l) l := by
  induction l with
  | nil => simp [pySortByKey]
  | cons a l ih => exact (insertByKey_perm key a _).trans (ih.cons a)

theorem insertByKey_pairwise {α : Type} (key : α → Nat) (a : α) {l : List α}
    (h : l.Pairwise (fun x y => key x ≤ key y)) :
    (insertByKey key a l).Pairwise (fun x y => key x ≤ key y) := by
  induction l with
  | nil => simp [insertByKey]
  | cons b l ih =>
    rcases List.pairwise_cons.mp h with ⟨hb, hl⟩
    by_cases hab : key a ≤ key b
    · simp only [insertByKey, if_pos hab]
      refine List.pairwise_cons.mpr ⟨?_, h⟩
      intro x hx
      rcases List.mem_cons.mp hx with rfl | hx
      · exact hab
      · exact hab.trans (hb x hx)
    · simp only [insertByKey, if_neg hab]
      refine List.pairwise_cons.mpr ⟨?_, ih hl⟩
      intro x hx
      rcases List.mem_cons.mp ((insertByKey_perm key a l).mem_iff.mp hx) with rfl | hx
      · exact le_of_lt (not_le.mp hab)
      · exact hb x hx

theorem pySortByKey_pairwise {α : Type} (key : α → Nat) (l : List α) :
    (pySortByKey key l).Pairwise (fun x y => key x ≤ key y) := by
  induction l with
  | nil => simp [pySortByKey]
  | cons a l ih => exact insertByKey_pairwise key a ih

theorem filter_insertByKey_of_eq {α : Type} (key : α → Nat) (a : α) (l : List α) (k : Nat)
    (ha : key a = k) :
    (insertByKey key a l).filter (fun e => key e == k) =
      a :: l.filter (fun e => key e == k) := by
  induction l with
  | nil => simp [insertByKey, ha]
  | cons b l ih =>
    by_cases hab : key a ≤ key b
    · rw [insertByKey, if_pos hab]
      simp [List.filter_cons, ha]
    · have hbk : (key b == k) = false := by
        have hlt : key b < key a := not_le.mp hab
        simp [Nat.ne_of_lt (ha ▸ hlt)]
      simp [insertByKey, hab, List.filter_cons, hbk, ih]

theorem filter_insertByKey_of_ne {α : Type} (key : α → Nat) (a : α) (l : List α) (k : Nat)
    (ha : ¬ key a = k) :
    (insertByKey key a l).filter (fun e => key e == k) =
      l.filter (fun e => key e == k) := by
  induction l with
  | nil => simp [insertByKey, ha]
  | cons b l ih =>
    by_cases hab : key a ≤ key b
    · simp [insertByKey, hab, List.filter_cons, ha]
    · simp [insertByKey, hab, List.filter_cons, ih]

theorem pySortByKey_filter {α : Type} (key : α → Nat) (l : List α) (k : Nat) :
    (pySortByKey key l).filter (fun e => key e == k) =
      l.filter (fun e => key e == k) := by
  induction l with
  | nil => simp [pySortByKey]
  | cons a l ih =>
    by_cases ha : key a = k
    · rw [pySortByKey, filter_insertByKey_of_eq key a _ k ha, ih]
      simp [List.filter_cons, ha]
    · rw [pySortByKey, filter_insertByKey_of_ne key a _ k ha, ih]
      simp [List.filter_cons, ha]

/-! ## Counting helper lemmas -/

theorem cnt_append {α : Type} [DecidableEq α] (a : α) (l l' : List α) :
    cnt a (l ++ l') = cnt a l + cnt a l' := by
  induction l with
  | nil => simp [cnt]
  | cons b l ih => simp [cnt, ih]; omega

theorem cnt_replicate_ne {α : Type} [DecidableEq α] (a b : α) (n : Nat) (h : ¬ b = a) :
    cnt a (List.replicate n b) = 0 := by
  induction n with
  | zero => rfl
  | succ n ih => simp [List.replicate, cnt, h, ih]

/-! ## Per-entry execution lemmas (lines 367-406) -/

theorem stopPhase_off {env : Env} {idx : Nat} (st sp : Nat) (ap : String) (now1 : Nat)
    (h : env.intr idx = .off) :
    stopPhase env idx st sp ap now1 = ([.scheduleStop idx st sp ap], max now1 sp, false) := by
  simp [stopPhase, h]

theorem entryEvents_off {env : Env} {idx : Nat} (st sp : Nat) (ap : String) (now : Nat)
    (h : env.intr idx = .off) :
    entryEvents env idx st sp ap now =
      (if now < st then
        ([.scheduleEntry idx st sp ap, .waited idx st, .scheduleStart idx st sp ap,
          .playbackStart idx ap, .scheduleStop idx st sp ap], max st sp, false)
       else
        ([.scheduleEntry idx st sp ap, .startImmediate idx, .scheduleStart idx st sp ap,
          .playbackStart idx ap, .scheduleStop idx st sp ap], max now sp, false)) := by
  by_cases hlt : now < st
  · simp [entryEvents, hlt, h, stopPhase_off st sp ap st h]
  · simp [entryEvents, hlt, h, stopPhase_off st sp ap now h]

theorem entryEvents_off_raised {env : Env} {idx : Nat} (st sp : Nat) (ap : String) (now : Nat)
    (h : env.intr idx = .off) :
    (entryEvents env idx st sp ap now).2.2 = false := by
  rw [entryEvents_off st sp ap now h]
  split <;> rfl

theorem entryEvents_off_start_mem {env : Env} {idx : Nat} (st sp : Nat) (ap : String)
    (now : Nat) (h : env.intr idx = .off) :
    Ev.scheduleStart idx st sp ap ∈ (entryEvents env idx st sp ap now).1 := by
  rw [entryEvents_off st sp ap now h]
  split <;> simp

theorem entryEvents_start_idx {env : Env} {idx : Nat} {st sp : Nat} {ap : String} {now : Nat}
    (h : env.intr idx = .off) {j a b : Nat} {c : String}
    (hm : Ev.scheduleStart j a b c ∈ (entryEvents env idx st sp ap now).1) : j = idx := by
  rw [entryEvents_off st sp ap now h] at hm
  revert hm
  split <;> (intro hm; simp at hm; exact hm.1)

theorem validateEntry_not_scheduleStart {env : Env} {sf : String} {idx : Nat} {e : RawEntry}
    {ev : Ev} (h : validateEntry env sf idx e = .error ev)
    (j a b : Nat) (c : String) : ev ≠ Ev.scheduleStart j a b c := by
  rcases e with ⟨(_ | (_ | st)), (_ | (_ | sp)), (_ | p)⟩ <;>
    simp only [validateEntry] at h <;>
    (try (repeat' split at h)) <;>
    (try simp at h) <;>
    (try (subst h; simp))

/-- The loop of `play_scheduled` reaching its first invalid entry: every
(valid) entry placed before it has already been fully executed — its
`SCHEDULE_START` is in the trace — the invalid entry's error message is
printed, and nothing at or past the invalid entry starts. -/
theorem runEntriesLoop_first_error (env : Env) (sf : String)
    (hno : ∀ i, env.intr i = IntrAt.off) :
    ∀ (pre : List (Nat × RawEntry)) (k : Nat) (bad : RawEntry)
      (rest : List (Nat × RawEntry)) (now : Nat) (ev : Ev),
      (∀ p ∈ pre, ∃ v, validateEntry env sf p.1 p.2 = .ok v) →
      validateEntry env sf k bad = .error ev →
      ∃ evs, runEntriesLoop env sf (pre ++ (k, bad) :: rest) now = (evs, false) ∧
        ev ∈ evs ∧
        (∀ p ∈ pre, ∃ a b c, Ev.scheduleStart p.1 a b c ∈ evs) ∧
        (∀ j a b c, Ev.scheduleStart j a b c ∈ evs → ∃ x, (j, x) ∈ pre) := by
  intro pre
  induction pre with
  | nil =>
    intro k bad rest now ev _ hbad
    refine ⟨[ev], by simp [runEntriesLoop, hbad], by simp, by simp, ?_⟩
    intro j a b c hm
    simp at hm
    exact ((validateEntry_not_scheduleStart hbad j a b c) hm.symm).elim
  | cons q pre ih =>
    intro k bad rest now ev hpre hbad
    obtain ⟨⟨st, sp, ap⟩, hq⟩ := hpre q (by simp)
    rcases q with ⟨idx, e⟩
    obtain ⟨evs', heq', hev', hstart', hrev'⟩ :=
      ih k bad rest (entryEvents env idx st sp ap now).2.1 ev
        (fun p hp => hpre p (by simp [hp])) hbad
    have hq2 : validateEntry env sf idx e = Except.ok (st, sp, ap) := hq
    have hr := entryEvents_off_raised st sp ap now (hno idx)
    refine ⟨(entryEvents env idx st sp ap now).1 ++ evs', ?_, ?_, ?_, ?_⟩
    · rw [List.cons_append]
      simp only [runEntriesLoop, hq2, hr, Bool.false_eq_true, if_false]
      rw [heq']
    · exact List.mem_append_right _ hev'
    · intro p hp
      rcases List.mem_cons.mp hp with rfl | hp
      · exact ⟨st, sp, ap, List.mem_append_left _ (entryEvents_off_start_mem st sp ap now (hno idx))⟩
      · obtain ⟨a, b, c, hm⟩ := hstart' p hp
        exact ⟨a, b, c, List.mem_append_right _ hm⟩
    · intro j a b c hm
      rcases List.mem_append.mp hm with hm | hm
      · exact ⟨e, by simp [entryEvents_start_idx (hno idx) hm]⟩
      · obtain ⟨x, hx⟩ := hrev' j a b c hm
        exact ⟨x, by simp [hx]⟩

/-- A schedule containing an entry whose `start_time` is absent or
unparsable makes `sorted(schedules, key=_start_dt)` raise before the
execution loop: `play_scheduled` ends with an unhandled exception and an
empty trace. -/
theorem playScheduled_invalid_start (env : Env) (sf : String) (es : List RawEntry)
    (e : RawEntry) (he : e ∈ es) (hbad : validStart e = false) :
    playScheduled env sf (some es) = ([], true) := by
  have hall : es.all validStart = false := by
    cases hx : es.all validStart
    · rfl
    · exact absurd (List.all_eq_true.mp hx e he) (by simp [hbad])
  cases es with
  | nil => cases he
  | cons a l => simp [playScheduled, sortSchedules, hall]

/-! ## Run-log invariants (lines 118-135, 410-436) -/

theorem head?_append_left {α : Type} (l l' : List α) (a : α) (h : l.head? = some a) :
    (l ++ l').head? = some a := by
  cases l with
  | nil => simp at h
  | cons b t => simpa using h

theorem writeHeaderIfNeeded_count (hdrOk : Bool) (st : LogSt)
    (h : cnt LogLine.header st.file = (if st.headerWritten then 1 else 0)) :
    cnt LogLine.header (writeHeaderIfNeeded hdrOk st).file =
      (if (writeHeaderIfNeeded hdrOk st).headerWritten then 1 else 0) := by
  by_cases hw : st.headerWritten
  · simpa [writeHeaderIfNeeded, hw] using h
  · cases hdrOk
    · simpa [writeHeaderIfNeeded, hw] using h
    · simp only [writeHeaderIfNeeded, if_neg hw, if_pos rfl]
      simp [cnt_append, cnt, hw, h]

theorem runLogOps_count : ∀ (ops : List LogOp) (st : LogSt),
    cnt LogLine.header st.file = (if st.headerWritten then 1 else 0) →
    cnt LogLine.header (runLogOps ops st).file =
      (if (runLogOps ops st).headerWritten then 1 else 0) := by
  intro ops
  induction ops with
  | nil => intro st h; simpa [runLogOps] using h
  | cons op ops ih =>
    intro st h
    cases op with
    | appendLine ho lo s =>
      refine ih _ ?_
      have h2 := writeHeaderIfNeeded_count ho st h
      cases lo
      · simpa [appendLogLine] using h2
      · simpa [appendLogLine, cnt_append, cnt] using h2
    | runSummary ho so =>
      refine ih _ ?_
      have h2 := writeHeaderIfNeeded_count ho st h
      cases so
      · simpa [writeRunLogOp] using h2
      · simpa [writeRunLogOp, cnt_append, cnt] using h2

theorem writeHeaderIfNeeded_head (st : LogSt)
    (h : (st.file = [] ∧ st.headerWritten = false) ∨ st.file.head? = some LogLine.header) :
    (writeHeaderIfNeeded true st).file.head? = some LogLine.header := by
  rcases h with ⟨hf, hw⟩ | hh
  · simp [writeHeaderIfNeeded, hw, hf]
  · by_cases hw : st.headerWritten
    · simpa [writeHeaderIfNeeded, hw] using hh
    · simp only [writeHeaderIfNeeded, if_neg hw, if_pos rfl]
      exact head?_append_left _ _ _ hh

theorem runLogOps_head : ∀ (ops : List LogOp), (∀ op ∈ ops, hdrOkOf op = true) →
    ∀ (st : LogSt),
    ((st.file = [] ∧ st.headerWritten = false) ∨ st.file.head? = some LogLine.header) →
    ((runLogOps ops st).file = [] ∧ (runLogOps ops st).headerWritten = false) ∨
      (runLogOps ops st).file.head? = some LogLine.header := by
  intro ops
  induction ops with
  | nil => intro _ st h; simpa [runLogOps] using h
  | cons op ops ih =>
    intro hok st h
    have hop : hdrOkOf op = true := hok op (by simp)
    cases op with
    | appendLine ho lo s =>
      have ho' : ho = true := hop
      subst ho'
      refine ih (fun o hm => hok o (by simp [hm])) _ (Or.inr ?_)
      have hh := writeHeaderIfNeeded_head st h
      cases lo
      · simpa [appendLogLine] using hh
      · simp only [appendLogLine, if_pos rfl]
        exact head?_append_left _ _ _ hh
    | runSummary ho so =>
      have ho' : ho = true := hop
      subst ho'
      refine ih (fun o hm => hok o (by simp [hm])) _ (Or.inr ?_)
      have hh := writeHeaderIfNeeded_head st h
      cases so
      · simpa [writeRunLogOp] using hh
      · simp only [writeRunLogOp, if_pos rfl]
        exact head?_append_left _ _ _ hh

/-! ## Supervisor-loop counting lemmas -/

theorem cnt_polls_play (n : Nat) : cnt PEv.play (List.replicate n .pollSleep) = 0 :=
  cnt_replicate_ne _ _ _ (by decide)

theorem cnt_polls_fail (n : Nat) : cnt PEv.playFail (List.replicate n .pollSleep) = 0 :=
  cnt_replicate_ne _ _ _ (by decide)

theorem cnt_polls_pause (n : Nat) : cnt PEv.pauseAfterFail (List.replicate n .pollSleep) = 0 :=
  cnt_replicate_ne _ _ _ (by decide)

theorem cnt_polls_begin (n : Nat) : cnt PEv.playBegin (List.replicate n .pollSleep) = 0 :=
  cnt_replicate_ne _ _ _ (by decide)

theorem playLoopIter_pause_eq_fail (e : LoopIterEnv) :
    cnt PEv.pauseAfterFail (playLoopIter e) = cnt PEv.playFail (playLoopIter e) := by
  rcases e with ⟨s, m, f, sa, p, polls⟩
  cases m <;> cases f <;> cases sa <;> cases p <;>
    simp [playLoopIter, cnt, cnt_polls_pause, cnt_polls_fail]

theorem playLoop_pause_eq_fail : ∀ its : List LoopIterEnv,
    cnt PEv.pauseAfterFail (playLoop its) = cnt PEv.playFail (playLoop its) := by
  intro its
  induction its with
  | nil => rfl
  | cons it rest ih =>
    cases hs : it.stopAtHead
    · simp [playLoop, hs, cnt_append, playLoopIter_pause_eq_fail, ih]
    · simp [playLoop, hs, cnt]

/-! ## Claim C1 -/

/-- C1 counterexample: in a two-entry schedule whose second sorted entry has a
non-existent path, the first entry is fully executed (its `SCHEDULE_START` and
supervisor start are in the trace) before the error is reported, refuting
"returns before any entry is executed". -/
theorem c1_counterexample :
    validateEntry envBase "s.json" 2 entryBad3040 =
      Except.error (Ev.errPathNotFound 2 "missing.mp3") ∧
    Ev.scheduleStart 1 10 20 "a.mp3" ∈
      (playScheduled envBase "s.json" (some [entryA1020, entryBad3040])).1 ∧
    Ev.playbackStart 1 "a.mp3" ∈
      (playScheduled envBase "s.json" (some [entryA1020, entryBad3040])).1 := by
  decide

/-- C1 (amended): with no external interrupt, when the sorted schedule is a list
of valid entries followed by an invalid one, the run reports exactly the invalid
entry's error and returns without executing it or anything after it, but every
entry sorted before it has already been executed (its `SCHEDULE_START` occurs);
no `SCHEDULE_START` outside that valid front occurs. -/
theorem c1_abort_after_earlier_entries (env : Env) (sf : String)
    (pre : List (Nat × RawEntry)) (k : Nat) (bad : RawEntry)
    (rest : List (Nat × RawEntry)) (now : Nat) (ev : Ev)
    (hno : ∀ i, env.intr i = IntrAt.off)
    (hpre : ∀ p ∈ pre, ∃ v, validateEntry env sf p.1 p.2 = Except.ok v)
    (hbad : validateEntry env sf k bad = Except.error ev) :
    ∃ evs, runEntriesLoop env sf (pre ++ (k, bad) :: rest) now = (evs, false) ∧
      ev ∈ evs ∧
      (∀ p ∈ pre, ∃ a b c, Ev.scheduleStart p.1 a b c ∈ evs) ∧
      (∀ j a b c, Ev.scheduleStart j a b c ∈ evs → ∃ x, (j, x) ∈ pre) :=
  runEntriesLoop_first_error env sf hno pre k bad rest now ev hpre hbad

/-- C1 witness: the amended theorem applied to the concrete two-entry schedule
of the counterexample. -/
theorem c1_abort_after_earlier_entries_witness :
    ∃ evs, runEntriesLoop envBase "s.json" [(1, entryA1020), (2, entryBad3040)] 0 =
        (evs, false) ∧
      Ev.errPathNotFound 2 "missing.mp3" ∈ evs ∧
      (∀ p ∈ [(1, entryA1020)], ∃ a b c, Ev.scheduleStart p.1 a b c ∈ evs) ∧
      (∀ j a b c, Ev.scheduleStart j a b c ∈ evs → ∃ x, (j, x) ∈ [(1, entryA1020)]) := by
  have h := c1_abort_after_earlier_entries envBase "s.json" [(1, entryA1020)] 2 entryBad3040
    [] 0 (Ev.errPathNotFound 2 "missing.mp3") (fun i => rfl)
    (by intro p hp; simp at hp; subst hp; exact ⟨(10, 20, "a.mp3"), by decide⟩)
    (by decide)
  simpa using h

/-! ## Claim C2 -/

/-- C2 (code bug): a `KeyboardInterrupt` delivered during entry 1's stop-wait is
caught and `SCHEDULE_STOP` is emitted, but the loop then waits for and executes
entry 2 — the run does not end: the source prints "Stopped by user" yet lacks a
`break`/`return`, contradicting both that message and the claim. -/
theorem c2_interrupt_continues_run :
    Ev.stoppedByUser ∈ (playScheduled envIntr1 "s.json" (some [entryA010, entryB2030])).1 ∧
    Ev.scheduleStop 1 0 10 "a.mp3" ∈
      (playScheduled envIntr1 "s.json" (some [entryA010, entryB2030])).1 ∧
    Ev.waited 2 20 ∈ (playScheduled envIntr1 "s.json" (some [entryA010, entryB2030])).1 ∧
    Ev.scheduleStart 2 20 30 "b.mp3" ∈
      (playScheduled envIntr1 "s.json" (some [entryA010, entryB2030])).1 ∧
    (playScheduled envIntr1 "s.json" (some [entryA010, entryB2030])).2 = false := by
  decide

/-! ## Claim C3 -/

/-- C3 counterexample: the directory `/music` exists and contains the supported
file `/music/song.mp3` (so `get_audio_files` resolves it to a non-empty list),
yet schedule validation rejects the entry as an unsupported source, refuting
"validation accepts the entry". -/
theorem c3_counterexample :
    getAudioFiles envMusicDir "/music" = ["/music/song.mp3"] ∧
    validateEntry envMusicDir "s.json" 1 ⟨some (some 0), some (some 5), some "/music"⟩ =
      Except.error (Ev.errUnsupported 1 "/music") := by
  decide

/-- C3 (amended): schedule validation accepts an entry exactly when its resolved
path exists and the path string itself ends in a supported audio extension — a
directory is rejected as unsupported regardless of its contents — and playback
of an accepted entry loops the single resolved path (the supervisor thread is
started on it), not a list resolved from a directory. -/
theorem c3_validation_by_extension (env : Env) (sf : String) (idx t u : Nat) (p : String)
    (htu : t < u) :
    (validateEntry env sf idx ⟨some (some t), some (some u), some p⟩ =
      (if env.pathExists (resolveSchedulePath env sf p) then
        (if isAudioFile (resolveSchedulePath env sf p) then
          Except.ok (t, u, resolveSchedulePath env sf p)
         else Except.error (Ev.errUnsupported idx (resolveSchedulePath env sf p)))
       else Except.error (Ev.errPathNotFound idx (resolveSchedulePath env sf p)))) ∧
    (∀ now, env.intr idx = IntrAt.off →
      Ev.playbackStart idx (resolveSchedulePath env sf p) ∈
        (entryEvents env idx t u (resolveSchedulePath env sf p) now).1) := by
  constructor
  · simp only [validateEntry]
    rw [if_neg (Nat.not_le.mpr htu)]
  · intro now h
    rw [entryEvents_off t u _ now h]
    split <;> simp

/-- C3 witness: the amended theorem applied to the `/music` directory entry. -/
theorem c3_validation_by_extension_witness :
    validateEntry envMusicDir "s.json" 1 ⟨some (some 0), some (some 5), some "/music"⟩ =
      Except.error (Ev.errUnsupported 1 "/music") ∧
    Ev.playbackStart 1 "/music" ∈ (entryEvents envMusicDir 1 0 5 "/music" 0).1 := by
  have h := c3_validation_by_extension envMusicDir "s.json" 1 0 5 "/music" (by decide)
  constructor
  · rw [h.1]; decide
  · have h2 := h.2 0 rfl
    have hr : resolveSchedulePath envMusicDir "s.json" "/music" = "/music" := rfl
    rw [hr] at h2
    exact h2

/-! ## Claim C4 -/

/-- C4 counterexample: in the single-file loop, an `.m4a` attempt with ffplay
unavailable and a succeeding pygame fallback emits `PLAY_BEGIN`, then
`PLAY_FAIL`, then `PLAY` — two outcome lines for one attempt, refuting
"never both". -/
theorem c4_counterexample :
    singleLoopIterEvents true false true 0 = [.playBegin, .playFail, .play] ∧
    outcomes ((singleLoopIterEvents true false true 0).tail) = 2 := by
  decide

/-- C4 (amended): every `PLAY_BEGIN` is followed by at most one `PLAY` and at
most one `PLAY_FAIL` in all three playback loops, and in `play_file` by exactly
one outcome line; the single-file `.m4a` fallback can produce both, and an
attempt cut short (scheduled stop during an `.m4a` subprocess play, or a pygame
error raising out of the single-file loop) can produce neither. -/
theorem c4_attempt_outcomes :
    (∀ (m : Bool) (r : PygameResult) (f : Bool) (polls : Nat),
      (playFileEvents m r f polls).head? = some PEv.playBegin ∧
      outcomes ((playFileEvents m r f polls).tail) = 1) ∧
    (∀ (m f p : Bool) (polls : Nat),
      cnt PEv.play (singleLoopIterEvents m f p polls) ≤ 1 ∧
      cnt PEv.playFail (singleLoopIterEvents m f p polls) ≤ 1) ∧
    (∀ e : LoopIterEnv,
      cnt PEv.play (playLoopIter e) ≤ 1 ∧ cnt PEv.playFail (playLoopIter e) ≤ 1) := by
  refine ⟨?_, ?_, ?_⟩
  · intro m r f polls
    cases m <;> cases r <;> cases f <;>
      simp [playFileEvents, outcomes, cnt, cnt_polls_play, cnt_polls_fail]
  · intro m f p polls
    cases m <;> cases f <;> cases p <;>
      simp [singleLoopIterEvents, cnt, cnt_polls_play, cnt_polls_fail]
  · intro e
    rcases e with ⟨s, m, f, sa, p, polls⟩
    cases m <;> cases f <;> cases sa <;> cases p <;>
      simp [playLoopIter, cnt, cnt_polls_play, cnt_polls_fail]

/-! ## Claim C5 -/

/-- C5 counterexample: two consecutive successful repeats of a single-item
source produce the trace `PLAY_BEGIN, PLAY, PLAY_BEGIN, PLAY` with no sleep of
any kind between them, refuting "inserts a non-zero pause between repeats". -/
theorem c5_counterexample :
    playLoop [okIter, okIter] = [.playBegin, .play, .playBegin, .play] ∧
    cnt PEv.pauseAfterFail (playLoop [okIter, okIter]) = 0 ∧
    cnt PEv.pollSleep (playLoop [okIter, okIter]) = 0 := by
  decide

/-- C5 (amended): the supervisor repeats the single item unboundedly while the
stop flag stays clear (n iterations produce n begins and n plays, for every n),
stops as soon as the flag is observed set, and inserts a pause only after a
failed attempt — never between successful repeats. -/
theorem c5_loop_until_stop_no_pause :
    (∀ n : Nat, cnt PEv.playBegin (playLoop (List.replicate n okIter)) = n ∧
      cnt PEv.play (playLoop (List.replicate n okIter)) = n) ∧
    (∀ its : List LoopIterEnv,
      cnt PEv.pauseAfterFail (playLoop its) = cnt PEv.playFail (playLoop its)) ∧
    (∀ (it : LoopIterEnv) (its : List LoopIterEnv),
      playLoop ({ it with stopAtHead := true } :: its) = []) := by
  refine ⟨?_, playLoop_pause_eq_fail, ?_⟩
  · intro n
    induction n with
    | zero => simp [playLoop, cnt]
    | succ n ih =>
      rw [List.replicate_succ]
      have hst : playLoop (okIter :: List.replicate n okIter) =
          playLoopIter okIter ++ playLoop (List.replicate n okIter) := rfl
      have hiter : playLoopIter okIter = [PEv.playBegin, PEv.play] := rfl
      rw [hst, hiter]
      constructor
      · rw [cnt_append, ih.1]; simp [cnt]; omega
      · rw [cnt_append, ih.2]; simp [cnt]; omega
  · intro it its
    simp [playLoop]

/-! ## Claim C6 -/

/-- C6 (confirmed): when every entry's `start_time` parses, the sort at line 338
succeeds and yields a permutation of the declared entries that is ordered by
non-decreasing start key and stable: for each key value, the sublist of entries
with that key equals the corresponding sublist of the declaration order. -/
theorem c6_sort_stable (es : List RawEntry) (h : es.all validStart = true) :
    ∃ es', sortSchedules es = some es' ∧
      es'.Pairwise (fun a b => startKeyOf a ≤ startKeyOf b) ∧
      (∀ k, es'.filter (fun e => startKeyOf e == k) =
        es.filter (fun e => startKeyOf e == k)) ∧
      List.Perm es' es := by
  exact ⟨pySortByKey startKeyOf es, by simp [sortSchedules, h],
    pySortByKey_pairwise _ _, fun k => pySortByKey_filter _ _ _, pySortByKey_perm _ _⟩

/-- C6 witness: the sort theorem applied to a concrete three-entry schedule. -/
theorem c6_sort_stable_witness :
    ∃ es', sortSchedules [entryB2030, entryA1020, entryA010] = some es' ∧
      es'.Pairwise (fun a b => startKeyOf a ≤ startKeyOf b) ∧
      (∀ k, es'.filter (fun e => startKeyOf e == k) =
        [entryB2030, entryA1020, entryA010].filter (fun e => startKeyOf e == k)) ∧
      List.Perm es' [entryB2030, entryA1020, entryA010] :=
  c6_sort_stable [entryB2030, entryA1020, entryA010] (by decide)

/-! ## Claim C7 -/

/-- C7 (confirmed): for an entry reached with the clock before `start_time`, the
engine waits until `start_time` and only then emits `SCHEDULE_START` and starts
playback; reached at or past `start_time`, it emits the immediate-start notice
and starts right away — in both cases the entry is executed, not skipped. -/
theorem c7_wait_iff_future (env : Env) (idx st sp : Nat) (ap : String) (now : Nat)
    (h : env.intr idx = IntrAt.off) :
    (now < st →
      (entryEvents env idx st sp ap now).1 =
        [.scheduleEntry idx st sp ap, .waited idx st, .scheduleStart idx st sp ap,
         .playbackStart idx ap, .scheduleStop idx st sp ap]) ∧
    (st ≤ now →
      (entryEvents env idx st sp ap now).1 =
        [.scheduleEntry idx st sp ap, .startImmediate idx, .scheduleStart idx st sp ap,
         .playbackStart idx ap, .scheduleStop idx st sp ap]) := by
  rw [entryEvents_off st sp ap now h]
  constructor
  · intro hlt; rw [if_pos hlt]
  · intro hle; rw [if_neg (Nat.not_lt.mpr hle)]

/-- C7 witness: the theorem applied to the same entry reached early (clock 0)
and late (clock 15). -/
theorem c7_wait_iff_future_witness :
    (entryEvents envBase 1 10 20 "a.mp3" 0).1 =
      [.scheduleEntry 1 10 20 "a.mp3", .waited 1 10, .scheduleStart 1 10 20 "a.mp3",
       .playbackStart 1 "a.mp3", .scheduleStop 1 10 20 "a.mp3"] ∧
    (entryEvents envBase 1 10 20 "a.mp3" 15).1 =
      [.scheduleEntry 1 10 20 "a.mp3", .startImmediate 1, .scheduleStart 1 10 20 "a.mp3",
       .playbackStart 1 "a.mp3", .scheduleStop 1 10 20 "a.mp3"] :=
  ⟨(c7_wait_iff_future envBase 1 10 20 "a.mp3" 0 rfl).1 (by decide),
   (c7_wait_iff_future envBase 1 10 20 "a.mp3" 15 rfl).2 (by decide)⟩

/-! ## Claim C8 -/

/-- C8 counterexample: a schedule whose only entry lacks `start_time` makes the
sort's key function raise an unhandled `KeyError` — the run ends with an
exception and an empty trace, with no clear message identifying the entry and
key, refuting "reports a clear configuration error ... including start_time". -/
theorem c8_counterexample :
    playScheduled envBase "s.json" (some [entryNoStart]) = ([], true) := by
  decide

/-- C8 (amended): an entry missing `start_time` aborts the whole run with an
unhandled exception from the sort, before any message or playback; an entry
missing `stop_time` or `path`, when reached in sorted order, produces the clear
error naming its index and the missing key, after which nothing further starts
(though entries sorted before it have already been executed). -/
theorem c8_missing_key_behaviour :
    (∀ (env : Env) (sf : String) (es : List RawEntry) (e : RawEntry), e ∈ es →
      e.start_time = none → playScheduled env sf (some es) = ([], true)) ∧
    (∀ (env : Env) (sf : String) (pre : List (Nat × RawEntry)) (k : Nat) (e : RawEntry)
        (rest : List (Nat × RawEntry)) (now : Nat) (st? : Option Nat),
      (∀ i, env.intr i = IntrAt.off) →
      (∀ p ∈ pre, ∃ v, validateEntry env sf p.1 p.2 = Except.ok v) →
      e.start_time = some st? → e.stop_time = none →
      ∃ evs, runEntriesLoop env sf (pre ++ (k, e) :: rest) now = (evs, false) ∧
        Ev.errMissingKey k SKey.stop_time ∈ evs ∧
        (∀ j a b c, Ev.scheduleStart j a b c ∈ evs → ∃ x, (j, x) ∈ pre)) ∧
    (∀ (env : Env) (sf : String) (pre : List (Nat × RawEntry)) (k : Nat) (e : RawEntry)
        (rest : List (Nat × RawEntry)) (now : Nat) (st? sp? : Option Nat),
      (∀ i, env.intr i = IntrAt.off) →
      (∀ p ∈ pre, ∃ v, validateEntry env sf p.1 p.2 = Except.ok v) →
      e.start_time = some st? → e.stop_time = some sp? → e.path = none →
      ∃ evs, runEntriesLoop env sf (pre ++ (k, e) :: rest) now = (evs, false) ∧
        Ev.errMissingKey k SKey.path ∈ evs ∧
        (∀ j a b c, Ev.scheduleStart j a b c ∈ evs → ∃ x, (j, x) ∈ pre)) := by
  refine ⟨?_, ?_, ?_⟩
  · intro env sf es e he hs
    exact playScheduled_invalid_start env sf es e he (by simp [validStart, hs])
  · intro env sf pre k e rest now st? hno hpre hs ht
    have hbad : validateEntry env sf k e = .error (.errMissingKey k .stop_time) := by
      rcases e with ⟨s, t, p⟩
      simp only at hs ht
      subst hs; subst ht; rfl
    obtain ⟨evs, h1, h2, _, h4⟩ :=
      runEntriesLoop_first_error env sf hno pre k e rest now _ hpre hbad
    exact ⟨evs, h1, h2, h4⟩
  · intro env sf pre k e rest now st? sp? hno hpre hs ht hp
    have hbad : validateEntry env sf k e = .error (.errMissingKey k .path) := by
      rcases e with ⟨s, t, p⟩
      simp only at hs ht hp
      subst hs; subst ht; subst hp; rfl
    obtain ⟨evs, h1, h2, _, h4⟩ :=
      runEntriesLoop_first_error env sf hno pre k e rest now _ hpre hbad
    exact ⟨evs, h1, h2, h4⟩

/-- C8 witness: the three clauses of the amended theorem applied to concrete
one-entry schedules. -/
theorem c8_missing_key_behaviour_witness :
    playScheduled envBase "s.json" (some [⟨none, some (some 7), some "b.mp3"⟩]) =
      ([], true) ∧
    (∃ evs, runEntriesLoop envBase "s.json" [(1, ⟨some (some 3), none, some "a.mp3"⟩)] 0 =
        (evs, false) ∧
      Ev.errMissingKey 1 SKey.stop_time ∈ evs ∧
      (∀ j a b c, Ev.scheduleStart j a b c ∈ evs → ∃ x, (j, x) ∈ ([] : List (Nat × RawEntry)))) ∧
    (∃ evs, runEntriesLoop envBase "s.json" [(1, ⟨some (some 3), some (some 4), none⟩)] 0 =
        (evs, false) ∧
      Ev.errMissingKey 1 SKey.path ∈ evs ∧
      (∀ j a b c, Ev.scheduleStart j a b c ∈ evs → ∃ x, (j, x) ∈ ([] : List (Nat × RawEntry)))) := by
  refine ⟨?_, ?_, ?_⟩
  · exact c8_missing_key_behaviour.1 envBase "s.json"
      [⟨none, some (some 7), some "b.mp3"⟩] ⟨none, some (some 7), some "b.mp3"⟩
      (by simp) rfl
  · have h := c8_missing_key_behaviour.2.1 envBase "s.json" [] 1
      ⟨some (some 3), none, some "a.mp3"⟩ [] 0 (some 3) (fun i => rfl) (by simp) rfl rfl
    simpa using h
  · have h := c8_missing_key_behaviour.2.2 envBase "s.json" [] 1
      ⟨some (some 3), some (some 4), none⟩ [] 0 (some 3) (some 4) (fun i => rfl) (by simp)
      rfl rfl rfl
    simpa using h

/-! ## Claim C9 -/

/-- C9 counterexample: when the lazy header write fails (only a warning is
printed) and the event-line write then succeeds, the file contains an event
line not preceded by any session header, refuting "every successfully appended
event line is preceded in the file by the session header". -/
theorem c9_counterexample :
    runLogOps [LogOp.appendLine false true "PLAY x"] initLog =
      ⟨false, [LogLine.event "PLAY x"]⟩ ∧
    LogLine.header ∉ (runLogOps [LogOp.appendLine false true "PLAY x"] initLog).file := by
  decide

/-- C9 (amended): across any run the session header appears in the file at most
once; it is written lazily (nothing is in the file before the first logging
call); and provided the lazy header writes do not fail, the file is empty or
starts with the session header, so every appended event line is preceded by it
— a failed header write, however, is only warned about and later event lines
may be appended headerless. -/
theorem c9_header_once_lazy :
    (∀ ops : List LogOp, cnt LogLine.header (runLogOps ops initLog).file ≤ 1) ∧
    ((runLogOps [] initLog).file = []) ∧
    (∀ ops : List LogOp, (∀ op ∈ ops, hdrOkOf op = true) →
      (runLogOps ops initLog).file = [] ∨
        (runLogOps ops initLog).file.head? = some LogLine.header) := by
  refine ⟨?_, rfl, ?_⟩
  · intro ops
    have h := runLogOps_count ops initLog (by simp [initLog, cnt])
    rw [h]
    split <;> simp
  · intro ops hok
    rcases runLogOps_head ops hok initLog (Or.inl ⟨rfl, rfl⟩) with ⟨hf, _⟩ | hh
    · exact Or.inl hf
    · exact Or.inr hh

/-- C9 witness: the amended theorem applied to a concrete run of one event
append followed by the run summary, all writes succeeding. -/
theorem c9_header_once_lazy_witness :
    cnt LogLine.header
      (runLogOps [LogOp.appendLine true true "PLAY a", LogOp.runSummary true true]
        initLog).file ≤ 1 ∧
    ((runLogOps [LogOp.appendLine true true "PLAY a", LogOp.runSummary true true]
        initLog).file = [] ∨
      (runLogOps [LogOp.appendLine true true "PLAY a", LogOp.runSummary true true]
        initLog).file.head? = some LogLine.header) :=
  ⟨c9_header_once_lazy.1 _, c9_header_once_lazy.2.2 _ (by decide)⟩

/-! ## Claim C10 -/

/-- C10 (confirmed): the play counter is keyed by the normalised path, so two
spellings that normalise alike produce identical counter updates — their plays
aggregate under one key, which is also what the run summary reports per file. -/
theorem c10_counts_by_normalized_path (env : Env) (c : String → Nat) (p q : String)
    (h : normalizeLogPath env p = normalizeLogPath env q) :
    incrementPlayCount env c p = incrementPlayCount env c q := by
  funext k
  simp [incrementPlayCount, h]

/-- C10 witness: the relative spelling `a.mp3` and the absolute spelling
`/d/a.mp3` normalise alike under the `/d` working directory and produce the
same counter update. -/
theorem c10_counts_by_normalized_path_witness :
    normalizeLogPath envCwd "a.mp3" = normalizeLogPath envCwd "/d/a.mp3" ∧
    incrementPlayCount envCwd (fun _ => 0) "a.mp3" =
      incrementPlayCount envCwd (fun _ => 0) "/d/a.mp3" :=
  ⟨by decide,
   c10_counts_by_normalized_path envCwd (fun _ => 0) "a.mp3" "/d/a.mp3" (by decide)⟩

end AudioPlayer
